import Mathlib

/-!
Shallow embedding of the version-constraint matching engine of
`insecure_libraries_searcher` (`src/main.py`).

Python strings become `String`, Python `None`-or-value results become
`Option`, and uncaught Python exceptions (`AttributeError` from calling
`.group` on a failed `re.match`, `TypeError` from iterating `None`)
become `Except PyError`.  Python's `x in y` evaluates
`bool(y.__contains__(x))`, so the first argument of each
`containsMethod` below is the *container* (`self` in the Python code)
and the second is the tested element (`item`).
-/

/-- Uncaught Python exceptions that the program can raise. -/
inductive PyError where
  | attributeError
  | typeError
deriving DecidableEq, Repr

/-- Helper for `pySplitChar`: splits at every separator, keeping empty
pieces, like Python `str.split(sep)`. -/
def splitOnCharAux (sep : Char) : List Char → List Char → List String
  | [], acc => [⟨acc⟩]
  | c :: rest, acc =>
    if c = sep then ⟨acc⟩ :: splitOnCharAux sep rest []
    else splitOnCharAux sep rest (acc ++ [c])

/-- Python `s.split(sep)` for a one-character separator. -/
def pySplitChar (sep : Char) (s : String) : List String :=
  splitOnCharAux sep s.data []

/-- Python string comparison on lists of characters: lexicographic by
code point, a strict prefix being smaller. -/
def pyListLt : List Char → List Char → Bool
  | _, [] => false
  | [], _ :: _ => true
  | a :: as, b :: bs =>
    if a.toNat < b.toNat then true
    else if b.toNat < a.toNat then false
    else pyListLt as bs

/-- Python `a < b` on strings. -/
def pyStrLt (a b : String) : Bool := pyListLt a.data b.data

/-- Python `a > b` on strings. -/
def pyStrGt (a b : String) : Bool := pyListLt b.data a.data

/-- Python `a <= b` on strings. -/
def pyStrLe (a b : String) : Bool := pyListLt a.data b.data || a == b

/-- Python `a >= b` on strings. -/
def pyStrGe (a b : String) : Bool := pyListLt b.data a.data || a == b

/-- Python `str.lower()` (ASCII letters, which is all the program feeds it). -/
def pyLower (s : String) : String := ⟨s.data.map Char.toLower⟩

/-- A character of the regex class `[<>=!]`. -/
def isDelimChar (c : Char) : Bool := c == '<' || c == '>' || c == '=' || c == '!'

/-- A character of the regex class `\s` (space, tab, newline, CR, VT, FF). -/
def isPySpace (c : Char) : Bool :=
  c.toNat == 32 || c.toNat == 9 || c.toNat == 10 || c.toNat == 13 ||
  c.toNat == 11 || c.toNat == 12

/-- A character of the regex class `\d`. -/
def isDigitChar (c : Char) : Bool := c.isDigit

/-- Matches the regex tail `(\.\d+)*` greedily; the fuel argument only
bounds the recursion and is always supplied as the list length. -/
def dotGroupsF : Nat → List Char → List Char
  | 0, _ => []
  | fuel + 1, cs =>
    match cs with
    | '.' :: rest =>
      let ds := rest.takeWhile isDigitChar
      if ds = [] then []
      else ('.' :: ds) ++ dotGroupsF fuel (rest.dropWhile isDigitChar)
    | _ => []

/-- Matches the regex `\d+(\.\d+)*` at the head of `cs`, returning the
matched text (the version capture group). -/
def parseVersionChars (cs : List Char) : Option (List Char) :=
  let ds := cs.takeWhile isDigitChar
  if ds = [] then none
  else some (ds ++ dotGroupsF cs.length (cs.dropWhile isDigitChar))

/-- `re.match` of `Vulnerability.INSECURE_SPECS_PATTERN`, i.e.
`([<>=!]+)\s*(\d+(\.\d+)*)` anchored at the start of the string;
returns the two capture groups. -/
def parseSpecPart (s : String) : Option (String × String) :=
  let cs := s.data
  let delim := cs.takeWhile isDelimChar
  if delim = [] then none
  else
    let rest := (cs.dropWhile isDelimChar).dropWhile isPySpace
    match parseVersionChars rest with
    | none => none
    | some v => some (⟨delim⟩, ⟨v⟩)

/-- The part of `PackagesSource.LIB_STRING_PATTERN` after the
non-greedy name group: `\s*([<>=!]+)\s*(\d+(\.\d+)*)`. -/
def parseOpVer (cs : List Char) : Option (String × String) :=
  let cs1 := cs.dropWhile isPySpace
  let delim := cs1.takeWhile isDelimChar
  if delim = [] then none
  else
    let rest := (cs1.dropWhile isDelimChar).dropWhile isPySpace
    match parseVersionChars rest with
    | none => none
    | some v => some (⟨delim⟩, ⟨v⟩)

/-- Helper for `matchLibString`: the non-greedy group `([\w\s\W]+?)`
takes the shortest non-empty prefix whose remainder matches the rest of
the pattern. -/
def matchLibAux : List Char → List Char → Option (String × String × String)
  | _, [] => none
  | pre, c :: rest =>
    match parseOpVer rest with
    | some (d, v) => some (⟨pre ++ [c]⟩, d, v)
    | none => matchLibAux (pre ++ [c]) rest

/-- `re.match` of `PackagesSource.LIB_STRING_PATTERN`, i.e.
`([\w\s\W]+?)\s*([<>=!]+)\s*(\d+(\.\d+)*)`; returns the name, delimiter
and version capture groups. -/
def matchLibString (s : String) : Option (String × String × String) :=
  matchLibAux [] s.data

/-- The `LibraryPackage` class: a name, a comparison delimiter and a
version, all stored as strings exactly as in the Python code. -/
structure LibraryPackage where
  name : String
  delimeter : String
  version : String
deriving DecidableEq, Repr

/-- `LibraryPackage.__contains__(self, item)` translated clause by
clause; the Python method falls through and returns `None` on
unhandled delimiter pairs, which is `none` here.  Version comparisons
are Python *string* comparisons, as in the source. -/
def LibraryPackage.containsMethod (self item : LibraryPackage) : Option Bool :=
  if self.delimeter = "==" then
    if item.delimeter = ">=" then some (pyStrGe self.version item.version)
    else if item.delimeter = ">" then some (pyStrGt self.version item.version)
    else if item.delimeter = "<=" then some (pyStrLe self.version item.version)
    else if item.delimeter = "<" then some (pyStrLt self.version item.version)
    else none
  else
    if (item.delimeter = ">=" ∨ item.delimeter = ">") ∧
        (self.delimeter = ">=" ∨ self.delimeter = ">") then some true
    else if (item.delimeter = "<=" ∨ item.delimeter = "<") ∧
        (self.delimeter = "<=" ∨ self.delimeter = "<") then some true
    else if item.delimeter = "<=" ∧ self.delimeter = ">=" then
      some (pyStrLe self.version item.version)
    else if item.delimeter = ">=" ∧ self.delimeter = "<=" then
      some (pyStrGe self.version item.version)
    else if (item.delimeter = "<" ∨ item.delimeter = "<=") ∧ self.delimeter = ">" then
      some (pyStrLt self.version item.version)
    else if (item.delimeter = ">" ∨ item.delimeter = ">=") ∧ self.delimeter = "<" then
      some (pyStrGt self.version item.version)
    else if item.delimeter = "<" ∧ (self.delimeter = ">=" ∨ self.delimeter = ">") then
      some (pyStrLt self.version item.version)
    else if item.delimeter = ">" ∧ (self.delimeter = "<=" ∨ self.delimeter = "<") then
      some (pyStrGt self.version item.version)
    else none

/-- Python `item in self` on `LibraryPackage`: the interpreter coerces
the `__contains__` result with `bool(...)`, and `bool(None) = False`. -/
def LibraryPackage.inOp (self item : LibraryPackage) : Bool :=
  (LibraryPackage.containsMethod self item).getD false

/-- The `Vulnerability` class after construction: name, advisory text
and the flat `version_limits` list built by `_get_version_limits`. -/
structure Vulnerability where
  name : String
  advisory : String
  version_limits : List LibraryPackage
deriving DecidableEq, Repr

/-- `Vulnerability.__contains__(self, item)`: returns `True` when
`item in limit` holds for every stored limit and falls through to
`None` as soon as one fails. -/
def vulnContainsAux (item : LibraryPackage) : List LibraryPackage → Option Bool
  | [] => some true
  | limit :: rest =>
    if LibraryPackage.inOp limit item then vulnContainsAux item rest else none

/-- `Vulnerability.__contains__` on the stored limits. -/
def Vulnerability.containsMethod (self : Vulnerability) (item : LibraryPackage) :
    Option Bool :=
  vulnContainsAux item self.version_limits

/-- Python `item in self` on `Vulnerability` (with the `bool` coercion). -/
def Vulnerability.inOp (self : Vulnerability) (item : LibraryPackage) : Bool :=
  (Vulnerability.containsMethod self item).getD false

/-- One inner step of `Vulnerability._get_version_limits`: every
comma-separated part of one spec string must match the spec pattern;
a failed `re.match` makes the subsequent `.group(1)` raise
`AttributeError`. -/
def limitsOfParts (name : String) : List String → Except PyError (List LibraryPackage)
  | [] => .ok []
  | p :: ps =>
    match parseSpecPart p, limitsOfParts name ps with
    | some (d, v), .ok rest => .ok (⟨name, d, v⟩ :: rest)
    | none, _ => .error .attributeError
    | _, .error e => .error e

/-- `Vulnerability._get_version_limits`: every spec of the record is
split on commas and all resulting limits are appended to one flat
list. -/
def getVersionLimits (name : String) : List String → Except PyError (List LibraryPackage)
  | [] => .ok []
  | spec :: specs =>
    match limitsOfParts name (pySplitChar ',' spec), getVersionLimits name specs with
    | .ok l1, .ok l2 => .ok (l1 ++ l2)
    | .error e, _ => .error e
    | _, .error e => .error e

/-- `Vulnerability.__init__`. -/
def mkVulnerability (name advisory : String) (specs : List String) :
    Except PyError Vulnerability :=
  match getVersionLimits name specs with
  | .ok limits => .ok ⟨name, advisory, limits⟩
  | .error e => .error e

/-- The `InsecureLibrary` class: a name and its vulnerability list. -/
structure InsecureLibrary where
  name : String
  vulnerabilities : List Vulnerability
deriving DecidableEq, Repr

/-- `InsecureLibrary.match_vulnerability`: `None` when the names differ
or when no vulnerability contains the package, the non-empty matching
list otherwise. -/
def InsecureLibrary.match_vulnerability (self : InsecureLibrary)
    (lib_package : LibraryPackage) : Option (List Vulnerability) :=
  if lib_package.name = self.name then
    let result := self.vulnerabilities.filter (fun v => Vulnerability.inOp v lib_package)
    if result = [] then none else some result
  else none

/-- One line of `PackagesSource.get_libraries`: match the line against
`LIB_STRING_PATTERN`, falling back to a bare name with delimiter `>`
and version `0`; the name is lowercased in both branches. -/
def parseRequirementLine (lib_string : String) : LibraryPackage :=
  match matchLibString lib_string with
  | some (name, delim, ver) => ⟨pyLower name, delim, ver⟩
  | none => ⟨pyLower lib_string, ">", "0"⟩

/-- `PackagesSource.get_libraries`. -/
def PackagesSource.get_libraries (libs_str_list : List String) : List LibraryPackage :=
  libs_str_list.map parseRequirementLine

/-- One catalogue entry: an advisory and its list of spec strings. -/
structure CatalogueEntry where
  advisory : String
  specs : List String
deriving DecidableEq, Repr

/-- The vulnerability catalogue, a JSON object keyed by package name
(Python dict, modelled as an association list). -/
def Catalogue : Type := List (String × List CatalogueEntry)

/-- Python `name in catalogue` on the dict. -/
def keyMem (cat : Catalogue) (name : String) : Bool :=
  (List.any cat (fun p => p.1 == name))

/-- Python `catalogue[name]` on the dict (always called after a
successful membership test). -/
def catGet (cat : Catalogue) (name : String) : List CatalogueEntry :=
  ((List.find? (fun p => p.1 == name) cat).map Prod.snd).getD []

/-- The `add_vulnerability` loop of `InsecureLibrariesSource.get_libraries`
for one package: one `Vulnerability` per catalogue entry, in order. -/
def mkVulns (name : String) : List CatalogueEntry → Except PyError (List Vulnerability)
  | [] => .ok []
  | e :: es =>
    match mkVulnerability name e.advisory e.specs, mkVulns name es with
    | .ok v, .ok rest => .ok (v :: rest)
    | .error err, _ => .error err
    | _, .error err => .error err

/-- The `result` accumulator of `InsecureLibrariesSource.get_libraries`:
one `InsecureLibrary` per declared requirement whose name is a
catalogue key (duplicates included), in declared order. -/
def buildInsecureList (cat : Catalogue) : List LibraryPackage →
    Except PyError (List InsecureLibrary)
  | [] => .ok []
  | r :: rs =>
    if keyMem cat r.name then
      match mkVulns r.name (catGet cat r.name), buildInsecureList cat rs with
      | .ok vs, .ok rest => .ok (⟨r.name, vs⟩ :: rest)
      | .error e, _ => .error e
      | _, .error e => .error e
    else buildInsecureList cat rs

/-- `InsecureLibrariesSource.get_libraries`: returns `None` (here
`none`) instead of the empty list when no requirement is in the
catalogue. -/
def InsecureLibrariesSource.get_libraries (cat : Catalogue)
    (requirement_libs_list : List LibraryPackage) :
    Except PyError (Option (List InsecureLibrary)) :=
  match buildInsecureList cat requirement_libs_list with
  | .error e => .error e
  | .ok result => .ok (if result = [] then none else some result)

/-- The body of the module-level matching loop for one
(insecure library, requirement) pair: the name guard, the
`match_vulnerability` call and the `if match:` truthiness test. -/
def loopBody (il : InsecureLibrary) (r : LibraryPackage) : List Vulnerability :=
  if il.name = r.name then (il.match_vulnerability r).getD [] else []

/-- The inner `for requirement_library in client.requirements_list` loop. -/
def innerReqLoop (il : InsecureLibrary) : List LibraryPackage → List Vulnerability
  | [] => []
  | r :: rs => loopBody il r ++ innerReqLoop il rs

/-- The module-level matching loop: outer iteration over the insecure
libraries, inner iteration over the declared requirements, extending
the `vulnerabilities` accumulator. -/
def matchingLoop : List InsecureLibrary → List LibraryPackage → List Vulnerability
  | [], _ => []
  | il :: ils, reqs => innerReqLoop il reqs ++ matchingLoop ils reqs

/-- The whole pipeline from requirement lines and catalogue to the
`vulnerabilities` list of the module level: parse the lines, build the
insecure-library list and run the matching loop.  Iterating the `None`
returned by `InsecureLibrariesSource.get_libraries` when nothing is in
the catalogue raises `TypeError`. -/
def runEngine (cat : Catalogue) (lines : List String) :
    Except PyError (List Vulnerability) :=
  let reqs := PackagesSource.get_libraries lines
  match InsecureLibrariesSource.get_libraries cat reqs with
  | .error e => .error e
  | .ok none => .error .typeError
  | .ok (some ils) => .ok (matchingLoop ils reqs)

/-- Modelled from the spec: emission ordered by the declared
requirement's input position first — the inner iteration over the
insecure libraries for one fixed declared requirement. -/
def ilsLoop (r : LibraryPackage) : List InsecureLibrary → List Vulnerability
  | [] => []
  | il :: ils => loopBody il r ++ ilsLoop r ils

/-- Modelled from the spec: the emission order claimed in §4.5 — outer
iteration over the declared requirements in input order, then over the
catalogue-derived libraries. -/
def specOrderedEmission (ils : List InsecureLibrary) :
    List LibraryPackage → List Vulnerability
  | [] => []
  | r :: rs => ilsLoop r ils ++ specOrderedEmission ils rs

/-- Digits of a version component to the integer they denote. -/
def digitsToNat (cs : List Char) : Nat :=
  cs.foldl (fun n c => n * 10 + (c.toNat - 48)) 0

/-- Component-wise comparison of integer sequences, right-padding the
shorter one with zeros: an exhausted side compares as zeros against the
remaining components of the other. -/
def cmpNatList : List Nat → List Nat → Ordering
  | [], bs => if bs.all (fun b => b == 0) then .eq else .lt
  | a :: as, [] => if (a :: as).all (fun x => x == 0) then .eq else .gt
  | a :: as, b :: bs =>
    if a < b then .lt else if b < a then .gt else cmpNatList as bs

/-- Modelled from the spec (§4.2): `compare(a, b)` is component-wise
integer comparison after splitting on the dot, right-padding the
shorter sequence with zeros. -/
def versionCompareSpec (a b : String) : Ordering :=
  cmpNatList ((pySplitChar '.' a).map (fun t => digitsToNat t.data))
    ((pySplitChar '.' b).map (fun t => digitsToNat t.data))

/-- Claim C1: the claim says that for a declared requirement with
operator `==` and a directional catalogue bound the consistency check
is true exactly when the declared version stands in the stated relation
to the bound version.  In the code the check is evaluated as
`item in limit`, i.e. `limit.__contains__(declared)`, so the `==`
branch dispatches on the *bound's* operator: a declared `==` against a
directional bound falls through every clause and returns `None`, which
the `in` operator coerces to `False` — the check is false for *all*
version pairs, contradicting the claim. -/
theorem declared_eq_vs_directional_bound_always_false
    (n1 n2 v1 v2 d : String)
    (hd : d = ">=" ∨ d = ">" ∨ d = "<=" ∨ d = "<") :
    LibraryPackage.inOp ⟨n1, d, v1⟩ ⟨n2, "==", v2⟩ = false := by
  rcases hd with h | h | h | h <;> subst h <;> rfl

/-- Witness for C1: the claim's own relation holds at this input
(`"1.11.0"` is below `"1.11.9"` in every order), yet the check is
false. -/
theorem declared_eq_vs_directional_bound_always_false_witness :
    LibraryPackage.inOp ⟨"django", "<", "1.11.9"⟩ ⟨"django", "==", "1.11.0"⟩ = false ∧
    pyStrLt "1.11.0" "1.11.9" = true :=
  ⟨declared_eq_vs_directional_bound_always_false "django" "django" "1.11.9" "1.11.0" "<"
    (Or.inr (Or.inr (Or.inr rfl))), rfl⟩

/-- Claim C2: the claim says the engine emits exactly one match with
advisory `CVE-X` on declared `["django==1.11.0"]` against the
catalogue entry `{"django": [{"advisory":"CVE-X","specs":["<1.11.9"]}]}`.
The code emits no match at all: the declared `==` requirement never
satisfies the directional bound because the containment roles are
reversed. -/
theorem end_to_end_scenario_emits_no_match :
    runEngine [("django", [⟨"CVE-X", ["<1.11.9"]⟩])] ["django==1.11.0"] =
      Except.ok [] := by
  rfl

/-- Claim C3: the claim says version comparison is component-wise
numeric comparison, with `"1.9"` below `"1.10"`.  The code compares
the raw version strings with Python string operators, so `"1.9"` is
*greater* than `"1.10"`, and the consistency check for declared
`>1.9` against bound `<1.10` comes out false; the spec-modelled
numeric comparison indeed yields `lt` there. -/
theorem version_comparison_is_string_not_numeric :
    pyStrLt "1.9" "1.10" = false ∧
    pyStrGt "1.9" "1.10" = true ∧
    LibraryPackage.inOp ⟨"p", "<", "1.10"⟩ ⟨"p", ">", "1.9"⟩ = false ∧
    versionCompareSpec "1.9" "1.10" = Ordering.lt :=
  ⟨rfl, rfl, rfl, rfl⟩

/-- Claim C4: the claim says a record's ranges are OR-connected (bounds
within one range AND-connected), so the record with specs
`["<1.0", ">=2.0,<3.0"]` should match declared `==2.5`.  The code
flattens all bounds of all specs into one `version_limits` list and
requires the declared requirement to satisfy *every* bound, so the
record matches neither `==2.5` nor even the directional `>=2.0`. -/
theorem record_ranges_are_flattened_conjunction :
    getVersionLimits "p" ["<1.0", ">=2.0,<3.0"] =
      Except.ok [⟨"p", "<", "1.0"⟩, ⟨"p", ">=", "2.0"⟩, ⟨"p", "<", "3.0"⟩] ∧
    runEngine [("p", [⟨"ADV", ["<1.0", ">=2.0,<3.0"]⟩])] ["p==2.5"] = Except.ok [] ∧
    runEngine [("p", [⟨"ADV", ["<1.0", ">=2.0,<3.0"]⟩])] ["p>=2.0"] = Except.ok [] :=
  ⟨rfl, rfl, rfl⟩

/-- Claim C5: the claim says a spec sub-string that does not match the
operator/version pattern only drops that one vulnerability record and
never aborts the scan.  In the code `re.match` returns `None` and the
immediate `.group(1)` raises an uncaught `AttributeError`, so the
whole scan aborts — the well-formed record `B` of the same package is
lost too. -/
theorem malformed_spec_aborts_whole_scan :
    getVersionLimits "p" ["bad"] = Except.error PyError.attributeError ∧
    runEngine [("p", [⟨"A", ["bad"]⟩, ⟨"B", ["<0.5"]⟩])] ["p>=1.0"] =
      Except.error PyError.attributeError :=
  ⟨rfl, rfl⟩

/-- Claim C6: a manifest line in which the operator/version pattern
finds no match is parsed as a bare package name: the lowercased line
with delimiter `>` and version `0`. -/
theorem bare_name_fallback (line : String)
    (h : matchLibString line = none) :
    PackagesSource.get_libraries [line] = [⟨pyLower line, ">", "0"⟩] := by
  simp [PackagesSource.get_libraries, parseRequirementLine, h]

/-- Witness for C6 at the spec's own example `"requests"`. -/
theorem bare_name_fallback_witness :
    matchLibString "requests" = none ∧
    PackagesSource.get_libraries ["requests"] = [⟨pyLower "requests", ">", "0"⟩] :=
  ⟨rfl, bare_name_fallback "requests" rfl⟩

/-- Claim C8: a declared requirement with operator `!=` is inconsistent
with every bound (any bound operator, including `!=` itself): no clause
of `__contains__` tests a declared `!=`, the method falls through to
`None`, and the `in` coercion makes the check a defined `False` with no
exception. -/
theorem declared_neq_always_false (n1 n2 db v1 v2 : String) :
    LibraryPackage.inOp ⟨n1, db, v1⟩ ⟨n2, "!=", v2⟩ = false := by
  by_cases h : db = "=="
  · subst h; rfl
  · simp [LibraryPackage.inOp, LibraryPackage.containsMethod, h]

/-- Claim C9: two upward constraints (declared in `{>, >=}` against a
bound in `{>, >=}`) are always consistent, and likewise two downward
constraints, whatever the two versions are. -/
theorem same_direction_always_true (n1 n2 d1 d2 v1 v2 : String)
    (h : ((d1 = ">" ∨ d1 = ">=") ∧ (d2 = ">" ∨ d2 = ">=")) ∨
         ((d1 = "<" ∨ d1 = "<=") ∧ (d2 = "<" ∨ d2 = "<="))) :
    LibraryPackage.inOp ⟨n2, d2, v2⟩ ⟨n1, d1, v1⟩ = true := by
  rcases h with ⟨h1 | h1, h2 | h2⟩ | ⟨h1 | h1, h2 | h2⟩ <;> subst h1 <;> subst h2 <;> rfl

/-- Witness for C9: declared `>= 3.7` against bound `> 99.0`. -/
theorem same_direction_always_true_witness :
    LibraryPackage.inOp ⟨"p", ">", "99.0"⟩ ⟨"p", ">=", "3.7"⟩ = true :=
  same_direction_always_true "p" "p" ">=" ">" "3.7" "99.0"
    (Or.inl ⟨Or.inr rfl, Or.inl rfl⟩)

/-- Helper for C10: when no declared requirement's name is a catalogue
key, the `result` accumulator stays empty. -/
theorem buildInsecureList_empty (cat : Catalogue) :
    ∀ reqs : List LibraryPackage,
    (∀ x ∈ reqs, keyMem cat x.name = false) →
    buildInsecureList cat reqs = Except.ok [] := by
  intro reqs
  induction reqs with
  | nil => intro _; rfl
  | cons r rs ih =>
    intro h
    have hq : keyMem cat r.name = false := h r (by simp)
    simp only [buildInsecureList, hq, Bool.false_eq_true, if_false]
    exact ih (fun x hx => h x (by simp [hx]))

/-- Claim C10: an empty result is the absent value `None`, not an empty
list — `InsecureLibrariesSource.get_libraries` returns `None` when no
declared name is a catalogue key, and `match_vulnerability` returns
`None` when the names differ or no vulnerability matches. -/
theorem empty_results_are_none (cat : Catalogue) (reqs : List LibraryPackage)
    (il : InsecureLibrary) (r : LibraryPackage)
    (hmiss : ∀ x ∈ reqs, keyMem cat x.name = false)
    (hno : r.name ≠ il.name ∨
      il.vulnerabilities.filter (fun v => Vulnerability.inOp v r) = []) :
    InsecureLibrariesSource.get_libraries cat reqs = Except.ok none ∧
    il.match_vulnerability r = none := by
  constructor
  · have h : buildInsecureList cat reqs = Except.ok [] :=
      buildInsecureList_empty cat reqs hmiss
    simp [InsecureLibrariesSource.get_libraries, h]
  · by_cases hn : r.name = il.name
    · rcases hno with h | h
      · exact absurd hn h
      · simp [InsecureLibrary.match_vulnerability, hn, h]
    · simp [InsecureLibrary.match_vulnerability, hn]

/-- Witness for C10: an empty catalogue against one requirement, and a
library with no vulnerabilities against a matching package. -/
theorem empty_results_are_none_witness :
    InsecureLibrariesSource.get_libraries [] [⟨"q", ">", "0"⟩] = Except.ok none ∧
    InsecureLibrary.match_vulnerability ⟨"m", []⟩ ⟨"m", ">", "0"⟩ = none :=
  empty_results_are_none [] [⟨"q", ">", "0"⟩] ⟨"m", []⟩ ⟨"m", ">", "0"⟩
    (by intro x hx; simp at hx; subst hx; rfl) (Or.inr rfl)

/-- Counterexample for C7: on declared requirements
`["a>=1.0", "a>=2.0"]` (the same name twice) against a catalogue with
one record for `a`, the claim predicts two emitted matches (each
declared constraint tested once); the engine emits four, because
`InsecureLibrariesSource.get_libraries` produces one `InsecureLibrary`
per declared occurrence of the name and the module loop crosses both
copies with both requirements. -/
theorem duplicate_names_emit_square :
    (runEngine [("a", [⟨"ADV", [">0"]⟩])] ["a>=1.0", "a>=2.0"]).map List.length =
      Except.ok 4 ∧
    (runEngine [("a", [⟨"ADV", [">0"]⟩])] ["a>=1.0", "a>=2.0"]).map List.length ≠
      Except.ok 2 := by
  refine ⟨rfl, fun h => ?_⟩
  rw [show (runEngine [("a", [⟨"ADV", [">0"]⟩])] ["a>=1.0", "a>=2.0"]).map List.length =
    Except.ok 4 from rfl] at h
  simp at h

/-- The loop body vanishes when the names differ. -/
theorem loopBody_ne (il : InsecureLibrary) (r : LibraryPackage)
    (h : il.name ≠ r.name) : loopBody il r = [] := by
  simp [loopBody, h]

/-- The inner requirement loop vanishes when the library's name occurs
nowhere among the requirements. -/
theorem innerReqLoop_nil (il : InsecureLibrary) :
    ∀ reqs : List LibraryPackage, (∀ r ∈ reqs, il.name ≠ r.name) →
    innerReqLoop il reqs = [] := by
  intro reqs
  induction reqs with
  | nil => intro _; rfl
  | cons r rs ih =>
    intro h
    simp only [innerReqLoop]
    rw [loopBody_ne il r (h r (by simp)), List.nil_append]
    exact ih (fun x hx => h x (by simp [hx]))

/-- The inner library loop vanishes when the requirement's name occurs
nowhere among the libraries. -/
theorem ilsLoop_nil (r : LibraryPackage) :
    ∀ ils : List InsecureLibrary, (∀ il ∈ ils, il.name ≠ r.name) →
    ilsLoop r ils = [] := by
  intro ils
  induction ils with
  | nil => intro _; rfl
  | cons il t ih =>
    intro h
    simp only [ilsLoop]
    rw [loopBody_ne il r (h il (by simp)), List.nil_append]
    exact ih (fun x hx => h x (by simp [hx]))

/-- A requirement whose name matches no library can be dropped from the
matching loop. -/
theorem matchingLoop_skip (r : LibraryPackage) :
    ∀ (ils : List InsecureLibrary) (rs : List LibraryPackage),
    (∀ il ∈ ils, il.name ≠ r.name) →
    matchingLoop ils (r :: rs) = matchingLoop ils rs := by
  intro ils
  induction ils with
  | nil => intro rs _; rfl
  | cons il t ih =>
    intro rs h
    simp only [matchingLoop, innerReqLoop]
    rw [loopBody_ne il r (h il (by simp)), List.nil_append,
      ih rs (fun x hx => h x (by simp [hx]))]

/-- A library whose name matches no requirement can be dropped from the
spec-ordered emission. -/
theorem specOrder_skip (il0 : InsecureLibrary) (ils : List InsecureLibrary) :
    ∀ rs : List LibraryPackage, (∀ x ∈ rs, il0.name ≠ x.name) →
    specOrderedEmission (il0 :: ils) rs = specOrderedEmission ils rs := by
  intro rs
  induction rs with
  | nil => intro _; rfl
  | cons r' rs' ih =>
    intro h
    simp only [specOrderedEmission, ilsLoop]
    rw [loopBody_ne il0 r' (h r' (by simp)), List.nil_append,
      ih (fun x hx => h x (by simp [hx]))]

/-- `buildInsecureList` produces one library per catalogue-eligible
requirement, named after it and in the same order. -/
theorem buildInsecureList_names (cat : Catalogue) :
    ∀ (reqs : List LibraryPackage) (ils : List InsecureLibrary),
    buildInsecureList cat reqs = Except.ok ils →
    ils.map InsecureLibrary.name =
      (reqs.filter (fun r => keyMem cat r.name)).map LibraryPackage.name := by
  intro reqs
  induction reqs with
  | nil =>
    intro ils h
    simp only [buildInsecureList, Except.ok.injEq] at h
    subst h
    rfl
  | cons r rs ih =>
    intro ils h
    simp only [buildInsecureList] at h
    cases hq : keyMem cat r.name with
    | false =>
      rw [hq] at h
      simp only [Bool.false_eq_true, if_false] at h
      rw [List.filter_cons_of_neg (by simp [hq])]
      exact ih ils h
    | true =>
      rw [hq] at h
      simp only [if_true] at h
      cases h1 : mkVulns r.name (catGet cat r.name) with
      | error e => rw [h1] at h; simp at h
      | ok vs =>
        cases h2 : buildInsecureList cat rs with
        | error e => rw [h1, h2] at h; simp at h
        | ok rest =>
          rw [h1, h2] at h
          simp only [Except.ok.injEq] at h
          subst h
          rw [List.filter_cons_of_pos (by simp [hq]), List.map_cons, List.map_cons]
          exact congrArg (List.cons r.name) (ih rest h2)

/-- Core of the amended C7: when the requirement names are pairwise
distinct and the library names are exactly the catalogue-eligible
requirement names in order, the library-major loop of the code emits
the same sequence as the requirement-major order of the spec. -/
theorem matchingLoop_eq_specOrdered (cat : Catalogue) :
    ∀ (reqs : List LibraryPackage) (ils : List InsecureLibrary),
    ils.map InsecureLibrary.name =
      (reqs.filter (fun r => keyMem cat r.name)).map LibraryPackage.name →
    (reqs.map LibraryPackage.name).Nodup →
    matchingLoop ils reqs = specOrderedEmission ils reqs := by
  intro reqs
  induction reqs with
  | nil =>
    intro ils hnames _
    cases ils with
    | nil => rfl
    | cons a t => simp at hnames
  | cons r rs ih =>
    intro ils hnames hnd
    rw [List.map_cons, List.nodup_cons] at hnd
    obtain ⟨hrni, hnd'⟩ := hnd
    cases hq : keyMem cat r.name with
    | false =>
      rw [List.filter_cons_of_neg (by simp [hq])] at hnames
      have hsub : ∀ il ∈ ils, il.name ∈ rs.map LibraryPackage.name := by
        intro il hil
        have h1 : il.name ∈ ils.map InsecureLibrary.name :=
          List.mem_map_of_mem _ hil
        rw [hnames] at h1
        obtain ⟨x, hx, hxe⟩ := List.mem_map.mp h1
        exact hxe ▸ List.mem_map_of_mem _ (List.mem_of_mem_filter hx)
      have hall : ∀ il ∈ ils, il.name ≠ r.name := by
        intro il hil heq
        exact hrni (heq ▸ hsub il hil)
      calc matchingLoop ils (r :: rs)
          = matchingLoop ils rs := matchingLoop_skip r ils rs hall
        _ = specOrderedEmission ils rs := ih ils hnames hnd'
        _ = specOrderedEmission ils (r :: rs) := by
            simp only [specOrderedEmission]
            rw [ilsLoop_nil r ils hall, List.nil_append]
    | true =>
      rw [List.filter_cons_of_pos (by simp [hq]), List.map_cons] at hnames
      cases ils with
      | nil => simp at hnames
      | cons il0 ils' =>
        rw [List.map_cons] at hnames
        injection hnames with h0 htl
        have hsub' : ∀ il ∈ ils', il.name ∈ rs.map LibraryPackage.name := by
          intro il hil
          have h1 : il.name ∈ ils'.map InsecureLibrary.name :=
            List.mem_map_of_mem _ hil
          rw [htl] at h1
          obtain ⟨x, hx, hxe⟩ := List.mem_map.mp h1
          exact hxe ▸ List.mem_map_of_mem _ (List.mem_of_mem_filter hx)
        have h1 : ∀ x ∈ rs, il0.name ≠ x.name := by
          intro x hx heq
          exact hrni (h0 ▸ heq ▸ List.mem_map_of_mem LibraryPackage.name hx)
        have h2 : ∀ il ∈ ils', il.name ≠ r.name := by
          intro il hil heq
          exact hrni (heq ▸ hsub' il hil)
        calc matchingLoop (il0 :: ils') (r :: rs)
            = (loopBody il0 r ++ innerReqLoop il0 rs) ++
                matchingLoop ils' (r :: rs) := rfl
          _ = loopBody il0 r ++ matchingLoop ils' rs := by
              rw [innerReqLoop_nil il0 rs h1, List.append_nil,
                matchingLoop_skip r ils' rs h2]
          _ = loopBody il0 r ++ specOrderedEmission ils' rs := by
              rw [ih ils' htl hnd']
          _ = (loopBody il0 r ++ ilsLoop r ils') ++
                specOrderedEmission (il0 :: ils') rs := by
              rw [ilsLoop_nil r ils' h2, List.append_nil,
                specOrder_skip il0 ils' rs h1]
          _ = specOrderedEmission (il0 :: ils') (r :: rs) := rfl

/-- Claim C7 (amended): the claim's ordering and multiplicity hold
provided no two declared requirements share a name — then the matching
loop's output equals the emission ordered by the declared requirement's
input position first and, within one declared requirement, by the
catalogue record's position, each match emitted once.  (With duplicated
names the engine instead emits each matching pair once per occurrence
of the name, as the counterexample shows.) -/
theorem matching_order_with_distinct_names (cat : Catalogue)
    (reqs : List LibraryPackage) (ils : List InsecureLibrary)
    (hok : buildInsecureList cat reqs = Except.ok ils)
    (hnd : (reqs.map LibraryPackage.name).Nodup) :
    matchingLoop ils reqs = specOrderedEmission ils reqs :=
  matchingLoop_eq_specOrdered cat reqs ils
    (buildInsecureList_names cat reqs ils hok) hnd

/-- Witness for the amended C7 on a concrete two-package input. -/
theorem matching_order_with_distinct_names_witness :
    matchingLoop [⟨"a", [⟨"a", "ADV", [⟨"a", ">", "0"⟩]⟩]⟩]
        [⟨"a", ">=", "1.0"⟩, ⟨"b", ">=", "1.0"⟩] =
      specOrderedEmission [⟨"a", [⟨"a", "ADV", [⟨"a", ">", "0"⟩]⟩]⟩]
        [⟨"a", ">=", "1.0"⟩, ⟨"b", ">=", "1.0"⟩] :=
  matching_order_with_distinct_names [("a", [⟨"ADV", [">0"]⟩])]
    [⟨"a", ">=", "1.0"⟩, ⟨"b", ">=", "1.0"⟩]
    [⟨"a", [⟨"a", "ADV", [⟨"a", ">", "0"⟩]⟩]⟩] rfl (by decide)
